import Mathlib

/-!
Verification of the Clubhouse podcast automation pipeline
(`src/core/downloader.py`, `src/core/audio_extractor.py`,
`src/core/transcriber.py`, `src/core/summarizer.py`).

The Python modules are shallowly embedded: pure string manipulation is
translated to Lean functions over `String` (character-for-character,
matching Python semantics on the ASCII range the code manipulates);
effectful code (subprocess, HTTP, hosted-AI calls, the environment) is
parameterised by a `World` of oracles, and each embedded operation
returns its result together with the list of external events it caused,
so ordering properties ("no subprocess call before the credential
check") are provable.
-/

/-! ## Python string primitives used by the modules -/

/-- Python ASCII whitespace, the set stripped by `str.strip()`
(Unicode-only space characters are outside the input alphabet of the code
and are not modelled). -/
def isPyWs (c : Char) : Bool :=
  c = ' ' || c = '\t' || c = '\n' || c = '\r' || c = '\x0b' || c = '\x0c'

/-- Python `str.strip(chars)` restricted to a character predicate:
removes characters satisfying `p` from both ends. -/
def pyStripOn (p : Char → Bool) (s : String) : String :=
  String.mk (((s.data.dropWhile p).reverse.dropWhile p).reverse)

/-- Python `str.strip()` (no argument): strip whitespace at both ends. -/
def pyStrip (s : String) : String :=
  pyStripOn isPyWs s

/-- Python `str.lstrip()`: strip whitespace on the left only. -/
def pyStripLeft (s : String) : String :=
  String.mk (s.data.dropWhile isPyWs)

/-- Python `str.upper()` on the ASCII range (the labels the code
uppercases are ASCII). -/
def pyUpper (s : String) : String :=
  String.mk (s.data.map Char.toUpper)

/-- Python `str.lower()` on the ASCII range. -/
def pyLower (s : String) : String :=
  String.mk (s.data.map Char.toLower)

/-- Python `str.replace(old, new)` for single-character `old`/`new`. -/
def pyReplaceChar (s : String) (c : Char) (r : Char) : String :=
  String.mk (s.data.map (fun x => if x = c then r else x))

/-- Python character-based slicing `s[:n]` (`String.take` in core is
byte-position based and defined by well-founded recursion, which the
kernel cannot evaluate; this structural version is extensionally the
same on the character level). -/
def pyTake (s : String) (n : ℕ) : String :=
  String.mk (s.data.take n)

/-- Python character-based slicing `s[n:]`. -/
def pyDrop (s : String) (n : ℕ) : String :=
  String.mk (s.data.drop n)

/-- Python `s.startswith(pre)`. -/
def pyStartsWith (s pre : String) : Bool :=
  pre.data.isPrefixOf s.data

/-- Python `s.endswith(suf)`. -/
def pyEndsWith (s suf : String) : Bool :=
  suf.data.isSuffixOf s.data

/-- Helper of `pySplitChar`: `acc` holds the current piece reversed. -/
def splitCharAux (sep : Char) : List Char → List Char → List String
  | [], acc => [String.mk acc.reverse]
  | c :: rest, acc =>
      if c = sep then String.mk acc.reverse :: splitCharAux sep rest []
      else splitCharAux sep rest (c :: acc)

/-- Python `s.split(sep)` for a single-character separator (the only
form the source uses): empty input yields `[""]`, adjacent separators
yield empty pieces. -/
def pySplitChar (sep : Char) (s : String) : List String :=
  splitCharAux sep s.data []

/-- `needle` occurs as a contiguous substring of `hay`
(Python `needle in hay`). -/
def isSubstrOf (needle hay : List Char) : Bool :=
  match hay with
  | [] => needle.isEmpty
  | _ :: t => needle.isPrefixOf hay || isSubstrOf needle t

/-- Python `sub in s` on strings. -/
def containsSub (s sub : String) : Bool :=
  isSubstrOf sub.data s.data

/-- Python truthiness of an `Optional[str]`: `None` and `""` are falsy. -/
def truthy : Option String → Bool
  | none => false
  | some s => s ≠ ""

/-- Python `a or b` on `Optional[str]` values. -/
def pyOr (a b : Option String) : Option String :=
  match a with
  | some s => if s = "" then b else some s
  | none => b

/-- Python `f"{n:03d}"`: decimal, left-padded with zeros to width 3. -/
def pad3 (n : ℕ) : String :=
  let s := toString n
  if s.length ≥ 3 then s else String.mk (List.replicate (3 - s.length) '0') ++ s

/-! ## `src/core/downloader.py` -/

namespace Downloader

/-- The characters the source treats as invalid in filenames
(the Python string literal of nine characters). -/
def invalid_chars : List Char :=
  ['<', '>', ':', '"', '/', '\\', '|', '?', '*']

/-- The sequential `filename.replace(char, "_")` loop of
`sanitize_filename`. -/
def replaceInvalid (filename : String) : String :=
  invalid_chars.foldl (fun acc c => pyReplaceChar acc c '_') filename

/-- `sanitize_filename` from `downloader.py`: replace each invalid
character with an underscore, strip leading/trailing dots and spaces
(`.strip(". ")`), truncate to 200 characters, and fall back to
`"download"` when the result is empty (Python `filename or "download"`). -/
def sanitize_filename (filename : String) : String :=
  let f1 := replaceInvalid filename
  let f2 := pyStripOn (fun c => c = '.' || c = ' ') f1
  let f3 := if f2.length > 200 then pyTake f2 200 else f2
  if f3 = "" then "download" else f3

/-- Result of the stdlib `urllib.parse.urlparse`, which is external to
the repository and therefore an oracle: scheme, netloc and path
components, or `none` when it raises. -/
structure UrlParts where
  scheme : String
  netloc : String
  path : String
deriving DecidableEq, Repr

/-- Errors raised by `requests.get` itself (before/independent of the
status check), as distinguished by the `except` clauses of the source. -/
inductive ReqError where
  | timedOut
  | connectionError (msg : String)
  | requestException (msg : String)
deriving DecidableEq, Repr

/-- An HTTP response as the source consumes it: status code, declared
content length, and the byte-chunk sizes yielded by `iter_content`. -/
structure HttpResponse where
  status : ℕ
  contentLength : Option ℕ
  body : List ℕ
deriving DecidableEq, Repr

/-- The external world of the downloader: the stdlib URL parser and the
network. -/
structure World where
  urlparse : String → Option UrlParts
  httpGet : String → Except ReqError HttpResponse

/-- Failure modes of `download_clubhouse_video`: `invalidUrl` is the
`ValueError`, the rest are the `DownloadError` raise sites. -/
inductive DlError where
  | invalidUrl (url : String)
  | fileNotFoundAfter
  | emptyFile
  | timedOut (secs : ℕ)
  | httpError (status : ℕ)
  | connectionError (msg : String)
  | requestFailed (msg : String)
deriving DecidableEq, Repr

/-- `validate_url`: scheme must be http/https and netloc non-empty
(`all([result.scheme in ("http", "https"), result.netloc])`). -/
def validate_url (w : World) (url : String) : Bool :=
  match w.urlparse url with
  | none => false
  | some parts => (parts.scheme = "http" || parts.scheme = "https") && parts.netloc ≠ ""

/-- The filename-derivation branch of `download_clubhouse_video` for a
missing/empty caller filename: last segment of the URL path
(`parsed.path.strip("/").split("/")`), query stripped, sanitized;
`"clubhouse_recording"` when the last segment is empty. -/
def deriveFilename (path : String) : String :=
  let path_parts := pySplitChar '/' (pyStripOn (fun c => c = '/') path)
  match path_parts.getLast? with
  | some lastPart =>
      if lastPart ≠ "" then
        sanitize_filename ((pySplitChar '?' lastPart).headD "")
      else "clubhouse_recording"
  | none => "clubhouse_recording"

/-- `download_clubhouse_video`.  The second component models the state
of the output path after the call (assuming it did not exist before the
call): `some n` means a file of `n` bytes was left there, `none` means
no file remains.  The oracle delivers the response body atomically, so
exceptions raised mid-stream are represented by `ReqError` outcomes of
the whole request. -/
def download_clubhouse_video (w : World) (url : String) (output_dir : String)
    (filename? : Option String) (timeout : ℕ) :
    Except DlError String × Option ℕ :=
  -- `if not url or not validate_url(url): raise ValueError`
  if url = "" || !validate_url w url then (.error (.invalidUrl url), none)
  else
    -- `if not filename:` (None and "" are both falsy)
    let fn0 := match filename? with
      | some f => f
      | none => ""
    let fn1 :=
      if fn0 = "" then
        match w.urlparse url with
        | some parts => deriveFilename parts.path
        -- unreachable once validation has passed (urlparse is deterministic)
        | none => "clubhouse_recording"
      else fn0
    -- `if not filename.endswith(".mp4"): filename = f"{filename}.mp4"`
    let fn2 := if pyEndsWith fn1 ".mp4" then fn1 else fn1 ++ ".mp4"
    let output_path := output_dir ++ "/" ++ fn2
    match w.httpGet url with
    | .error .timedOut => (.error (.timedOut timeout), none)
    | .error (.connectionError m) => (.error (.connectionError m), none)
    | .error (.requestException m) => (.error (.requestFailed m), none)
    | .ok resp =>
      -- `response.raise_for_status()` raises HTTPError for 4xx/5xx
      if 400 ≤ resp.status then (.error (.httpError resp.status), none)
      else
        -- the streaming loop writes every non-empty chunk; the file
        -- opened with "wb" ends up holding the sum of the chunk sizes
        let total := resp.body.sum
        if total = 0 then
          -- `output_path.unlink()` then `raise DownloadError("Downloaded file is empty")`
          (.error .emptyFile, none)
        else (.ok output_path, some total)

end Downloader

/-! ## `src/core/summarizer.py` -/

namespace Summarizer

/-- The five fields of the description bundle (the keys of the Python
result dict). -/
inductive Field where
  | youtube_title
  | youtube_description
  | spotify_title
  | spotify_description
  | tags
deriving DecidableEq, Repr

/-- The parsed description bundle (the dict `_parse_response` returns). -/
structure ParseResult where
  youtube_title : String
  youtube_description : String
  spotify_title : String
  spotify_description : String
  tags : List String
deriving DecidableEq, Repr

/-- The value of a field, uniformly (the string fields and the tag list). -/
inductive FieldVal where
  | str (s : String)
  | tags (ts : List String)
deriving DecidableEq, Repr

def getField (r : ParseResult) : Field → FieldVal
  | .youtube_title => .str r.youtube_title
  | .youtube_description => .str r.youtube_description
  | .spotify_title => .str r.spotify_title
  | .spotify_description => .str r.spotify_description
  | .tags => .tags r.tags

/-- The initial result dict of `_parse_response`: title fields fall back
to `fallback_title`, descriptions are empty, tags empty. -/
def initResult (fallback_title : String) : ParseResult :=
  ⟨fallback_title, "", fallback_title, "", []⟩

/-- `field_mapping` from `_parse_response`, in source (insertion)
order. -/
def field_mapping : List (String × Field) :=
  [("YOUTUBE_TITLE:", .youtube_title),
   ("YOUTUBE_DESCRIPTION:", .youtube_description),
   ("SPOTIFY_TITLE:", .spotify_title),
   ("SPOTIFY_DESCRIPTION:", .spotify_description),
   ("TAGS:", .tags)]

/-- `_parse_tags`: newlines become commas, split on commas, each piece
whitespace-stripped then stripped of leading/trailing `#`
(`tag.strip().strip("#")`), empty results dropped. -/
def parse_tags (tags_text : String) : List String :=
  let t := pyReplaceChar tags_text '\n' ','
  let tags := (pySplitChar ',' t).map (fun tag => pyStripOn (fun c => c = '#') (pyStrip tag))
  tags.filter (fun tag => tag ≠ "")

/-- The inner `for prefix, field_name in field_mapping.items()` loop of
`_parse_response`: first label whose uppercase form prefixes the
stripped-uppercased line wins; the initial content of the field is the
RAW line sliced at the label length, then stripped
(`content = line[len(prefix):].strip()`). -/
def findFieldAux (line line_upper : String) :
    List (String × Field) → Option (Field × String)
  | [] => none
  | (lab, f) :: rest =>
      if pyStartsWith line_upper (pyUpper lab) then
        some (f, pyStrip (pyDrop line lab.length))
      else findFieldAux line line_upper rest

/-- Label detection for one line (`line_upper = line.strip().upper()`). -/
def findField (line : String) : Option (Field × String) :=
  findFieldAux line (pyUpper (pyStrip line)) field_mapping

/-- The field a line opens, if any. -/
def fieldOf (line : String) : Option Field :=
  (findField line).map Prod.fst

/-- Flushing a finished field buffer into the result: tags go through
`_parse_tags`, other fields are newline-joined and stripped. -/
def saveField (r : ParseResult) (f : Field) (content : List String) : ParseResult :=
  match f with
  | .youtube_title => { r with youtube_title := pyStrip (String.intercalate "\n" content) }
  | .youtube_description => { r with youtube_description := pyStrip (String.intercalate "\n" content) }
  | .spotify_title => { r with spotify_title := pyStrip (String.intercalate "\n" content) }
  | .spotify_description => { r with spotify_description := pyStrip (String.intercalate "\n" content) }
  | .tags => { r with tags := parse_tags (String.intercalate "\n" content) }

/-- The `for line in lines` state machine of `_parse_response`:
`cf`/`cc` are `current_field`/`current_content`; a field is flushed only
when both are non-empty (`if current_field and current_content:`), the
final flush happens when the lines run out. -/
def parseLoop (lines : List String) (cf : Option Field) (cc : List String)
    (r : ParseResult) : ParseResult :=
  match lines with
  | [] =>
      match cf with
      | some g => if cc ≠ [] then saveField r g cc else r
      | none => r
  | line :: rest =>
      match findField line with
      | some (f, content) =>
          let r' := match cf with
            | some g => if cc ≠ [] then saveField r g cc else r
            | none => r
          parseLoop rest (some f) (if content ≠ "" then [content] else []) r'
      | none =>
          match cf with
          | some _ => parseLoop rest cf (cc ++ [line]) r
          | none => parseLoop rest none cc r

/-- `_parse_response`: split the stripped reply on newlines, run the
label state machine, and discard tags when they were not requested. -/
def parse_response (response_text : String) (fallback_title : String)
    (include_tags : Bool) : ParseResult :=
  let lines := pySplitChar '\n' (pyStrip response_text)
  let r := parseLoop lines none [] (initResult fallback_title)
  if include_tags then r else { r with tags := [] }

/-- `SummaryError` raise sites of `summarizer.py`, one constructor per
site (the Python class carries only a message; the constructors record
which message template fired). -/
inductive SummaryError where
  | emptyTranscript
  | emptyTitle
  | config
  | emptyResponse
  | apiKeyError (msg : String)
  | generationFailed (msg : String)
deriving DecidableEq, Repr

/-- External events of the summarizer: the one generation call. -/
inductive SEvent where
  | generate (prompt : String)
deriving DecidableEq, Repr

/-- The external world of the summarizer: the credential environment
variable and the hosted model (prompt to reply text, or the message of
a raised exception). -/
structure World where
  envKey : Option String
  generate : String → Except String String

/-- `configure_gemini` from `summarizer.py`: explicit key, else the
`GEMINI_API_KEY` environment variable; raise when neither is truthy. -/
def configure_gemini (w : World) (api_key : Option String) :
    Except SummaryError Unit :=
  if truthy (pyOr api_key w.envKey) then .ok () else .error .config

/-- The prompt template of `generate_descriptions`, including the
stray `  # Limit transcript length for API` text that sits inside the
f-string literal, with the transcript truncated to its first 10000
characters. -/
def buildPrompt (transcript episode_title : String)
    (youtube_max_length spotify_max_length max_tags : ℕ) : String :=
  "You are a podcast content assistant. Based on the following transcript, generate content for publishing this episode.\n\n" ++
  "Episode Title: " ++ episode_title ++ "\n\n" ++
  "Transcript:\n" ++ pyTake transcript 10000 ++ "  # Limit transcript length for API\n\n" ++
  "Please generate:\n\n" ++
  "1. YOUTUBE_TITLE: A catchy, SEO-friendly title for YouTube (max 100 characters). Keep it engaging but informative.\n\n" ++
  "2. YOUTUBE_DESCRIPTION: A comprehensive description for YouTube (max " ++ toString youtube_max_length ++ " characters) that includes:\n" ++
  "   - A brief summary of the episode (2-3 sentences)\n" ++
  "   - Key topics discussed (bullet points)\n" ++
  "   - Timestamps for major sections if identifiable\n" ++
  "   - A call to action to subscribe\n\n" ++
  "3. SPOTIFY_TITLE: The episode title for Spotify (can be same as original or slightly modified, max 100 characters)\n\n" ++
  "4. SPOTIFY_DESCRIPTION: A description for Spotify (max " ++ toString spotify_max_length ++ " characters) that includes:\n" ++
  "   - A concise summary of the episode\n" ++
  "   - Key takeaways\n" ++
  "   - Keep it more conversational than YouTube\n\n" ++
  "5. TAGS: " ++ toString max_tags ++ " relevant tags/keywords for discoverability (comma-separated)\n\n" ++
  "Format your response exactly as follows:\n" ++
  "YOUTUBE_TITLE: [title here]\n" ++
  "YOUTUBE_DESCRIPTION: [description here]\n" ++
  "SPOTIFY_TITLE: [title here]\n" ++
  "SPOTIFY_DESCRIPTION: [description here]\n" ++
  "TAGS: [tag1, tag2, tag3, ...]\n"

/-- `generate_descriptions`: validate inputs, check the credential,
issue the generation call, map upstream exception messages, and parse
the reply.  The event list records the external calls made. -/
def generate_descriptions (w : World) (transcript episode_title : String)
    (api_key : Option String) (youtube_max_length spotify_max_length : ℕ)
    (generate_tags : Bool) (max_tags : ℕ) :
    Except SummaryError ParseResult × List SEvent :=
  -- `if not transcript or not transcript.strip()`
  if pyStrip transcript = "" then (.error .emptyTranscript, [])
  else if pyStrip episode_title = "" then (.error .emptyTitle, [])
  else
    match configure_gemini w api_key with
    | .error e => (.error e, [])
    | .ok () =>
      let prompt := buildPrompt transcript episode_title
        youtube_max_length spotify_max_length max_tags
      match w.generate prompt with
      | .error msg =>
          let m := pyLower msg
          if containsSub m "api key" then (.error (.apiKeyError msg), [.generate prompt])
          else (.error (.generationFailed msg), [.generate prompt])
      | .ok text =>
          if text = "" then (.error .emptyResponse, [.generate prompt])
          else (.ok (parse_response text episode_title generate_tags), [.generate prompt])

end Summarizer

/-! ## `src/core/transcriber.py` -/

namespace Transcriber

/-- External events of the transcriber: subprocess invocations (with
their argv), the hosted-AI upload/generate/delete calls, and the
rate-limit sleeps. -/
inductive Event where
  | subprocess (argv : List String)
  | upload (path : String)
  | generate (path : String)
  | deleteRemote (path : String)
  | sleep (secs : ℕ)
deriving DecidableEq, Repr

/-- Failure modes of the transcriber.  `fileNotFound` is the Python
`FileNotFoundError` (not a `TranscriptionError`); the others are the
`TranscriptionError` raise sites, one constructor per message
template. -/
inductive TransError where
  | fileNotFound (p : String)
  | config
  | emptyResponse
  | apiKeyError (msg : String)
  | blocked (msg : String)
  | generationFailed (msg : String)
  | durationFailed (p : String)
  | splitFailed (start : ℕ)
deriving DecidableEq, Repr

/-- Which errors the `except TranscriptionError` clause of the chunk
loop catches (everything except `FileNotFoundError`). -/
def TransError.isTranscriptionError : TransError → Bool
  | .fileNotFound _ => false
  | _ => true

/-- The external world of the transcriber. `ffprobeOut` is the parsed
duration a successful `ffprobe` run plus `float(...)` yields (`none`
collapses both subprocess failure and float-parse failure, exactly the
blanket `except Exception` of `get_audio_duration`).  `upload` and
`generate` return the exception message on failure; `generate` returns
`response.text` (with `""` for a falsy/absent text). -/
structure World where
  fileExists : String → Bool
  isFile : String → Bool
  envKey : Option String
  ffprobeOut : String → Option ℚ
  ffmpegSplitOk : String → ℕ → Bool
  upload : String → Except String Unit
  generate : String → String → Except String String

/-- `configure_gemini` from `transcriber.py`. -/
def configure_gemini (w : World) (api_key : Option String) :
    Except TransError Unit :=
  if truthy (pyOr api_key w.envKey) then .ok () else .error .config

/-- The `language_map.get(language, language)` lookup. -/
def language_desc (language : String) : String :=
  if language = "yue" then "Cantonese (Hong Kong)"
  else if language = "zh-HK" then "Cantonese (Hong Kong)"
  else if language = "zh" then "Mandarin Chinese"
  else if language = "zh-TW" then "Traditional Chinese (Taiwan)"
  else if language = "en" then "English"
  else language

/-- The transcription prompt of `transcribe_audio` (timestamped or
plain variant). -/
def buildPrompt (language : String) (include_timestamps : Bool) : String :=
  let common :=
    "Transcribe the following audio file accurately.\n\n" ++
    "Background: This is an audio recording from an online live show or podcast conversation with multiple speakers.\n\n" ++
    "Language: " ++ language_desc language ++ "\n\n" ++
    "Instructions:\n"
  if include_timestamps then
    common ++
    "- Transcribe all spoken content into clear, complete sentences\n" ++
    "- Include timestamps in the format [MM:SS] at the beginning of each paragraph or when the speaker changes\n" ++
    "- Preserve the natural flow of conversation\n" ++
    "- Keep colloquial expressions and slang as spoken\n" ++
    "- Separate different speakers\x27 dialogue into distinct paragraphs\n" ++
    "- Provide only the transcript, no additional commentary or summaries"
  else
    common ++
    "- Transcribe all spoken content into clear, complete sentences\n" ++
    "- Preserve the natural flow of conversation\n" ++
    "- Keep colloquial expressions and slang as spoken\n" ++
    "- Separate different speakers\x27 dialogue into distinct paragraphs\n" ++
    "- Provide only the transcript text, no timestamps or additional commentary"

/-- The `except Exception` mapping of `transcribe_audio`: an
`"api key"` substring (of the lowercased message) maps to the key
error, `"blocked"`/`"safety"` to the content filter error, anything
else to the generic failure. -/
def mapPyExc (msg : String) : TransError :=
  let m := pyLower msg
  if containsSub m "api key" then .apiKeyError msg
  else if containsSub m "blocked" || containsSub m "safety" then .blocked msg
  else .generationFailed msg

/-- `transcribe_audio`: validate the input path, check the credential,
upload, generate, best-effort delete the remote copy, and require a
non-empty reply (returned stripped). -/
def transcribe_audio (w : World) (audio_path : String) (api_key : Option String)
    (language : String) (include_timestamps : Bool) :
    Except TransError String × List Event :=
  if !w.fileExists audio_path then (.error (.fileNotFound audio_path), [])
  else if !w.isFile audio_path then (.error (.fileNotFound audio_path), [])
  else
    match configure_gemini w api_key with
    | .error e => (.error e, [])
    | .ok () =>
      let prompt := buildPrompt language include_timestamps
      match w.upload audio_path with
      | .error msg => (.error (mapPyExc msg), [.upload audio_path])
      | .ok () =>
        match w.generate prompt audio_path with
        | .error msg => (.error (mapPyExc msg), [.upload audio_path, .generate audio_path])
        | .ok text =>
          -- cleanup runs before the empty-reply check; its own failures
          -- are swallowed (`except Exception: pass`)
          let evs : List Event := [.upload audio_path, .generate audio_path, .deleteRemote audio_path]
          if text = "" then (.error .emptyResponse, evs)
          else (.ok (pyStrip text), evs)

/-- argv of the `ffprobe` duration probe. -/
def ffprobeArgv (ffprobe_path audio_path : String) : List String :=
  [ffprobe_path, "-v", "quiet", "-show_entries", "format=duration",
   "-of", "default=noprint_wrappers=1:nokey=1", audio_path]

/-- `get_audio_duration` from `transcriber.py`. -/
def get_audio_duration (w : World) (audio_path : String) :
    Except TransError ℚ × List Event :=
  (match w.ffprobeOut audio_path with
   | some d => .ok d
   | none => .error (.durationFailed audio_path),
   [.subprocess (ffprobeArgv "ffprobe" audio_path)])

/-- Chunk file path: `output_dir / f"chunk_{chunk_num:03d}.mp3"`. -/
def chunkName (output_dir : String) (i : ℕ) : String :=
  output_dir ++ "/chunk_" ++ pad3 i ++ ".mp3"

/-- argv of one `ffmpeg` split invocation. -/
def ffmpegSplitArgv (ffmpeg_path audio_path : String) (start c : ℕ)
    (chunk_path : String) : List String :=
  [ffmpeg_path, "-y", "-i", audio_path, "-ss", toString start,
   "-t", toString c, "-acodec", "libmp3lame", "-q:a", "2", chunk_path]

/-- The `while start_time < total_duration` loop of `split_audio`:
`start` advances by `chunk_duration_seconds` each pass.  The source
loop never terminates when `chunk_duration_seconds = 0` and the
duration is positive; the model folds `0 < c` into the guard so that
case returns (theorems always assume `0 < c`). -/
def splitLoop (w : World) (audio_path output_dir : String) (c : ℕ)
    (total : ℚ) (start chunk_num : ℕ) :
    Except TransError (List String) × List Event :=
  if h : 0 < c ∧ (start : ℚ) < total then
    let p := chunkName output_dir chunk_num
    let ev := Event.subprocess (ffmpegSplitArgv "ffmpeg" audio_path start c p)
    if w.ffmpegSplitOk audio_path start then
      let r := splitLoop w audio_path output_dir c total (start + c) (chunk_num + 1)
      ((r.1.map (p :: ·) : Except TransError (List String)), ev :: r.2)
    else (.error (.splitFailed start), [ev])
  else (.ok [], [])
termination_by ⌈total⌉.toNat - start
decreasing_by
  have hlt : (start : ℚ) < total := h.2
  have h1 : (start : ℤ) < ⌈total⌉ := by
    exact_mod_cast lt_of_lt_of_le hlt (Int.le_ceil total)
  have h2 : start < ⌈total⌉.toNat := by omega
  exact Nat.sub_lt_sub_left h2 (Nat.lt_add_of_pos_right h.1)

/-- `split_audio`: probe the duration, then run the split loop from
`start_time = 0`. -/
def split_audio (w : World) (audio_path output_dir : String) (c : ℕ) :
    Except TransError (List String) × List Event :=
  match get_audio_duration w audio_path with
  | (.error e, evs) => (.error e, evs)
  | (.ok total, evs) =>
    let r := splitLoop w audio_path output_dir c total 0 0
    (r.1, evs ++ r.2)

/-- The placeholder for a failed chunk:
`f"[Transcription failed for chunk {i+1}]"`. -/
def placeholder (i : ℕ) : String :=
  "[Transcription failed for chunk " ++ toString (i + 1) ++ "]"

/-- The chunk-boundary marker prepended when timestamps are requested
and the chunk does not start at minute 0:
`f"[Chunk {i+1} - starts at {chunk_start_minutes}:00]\n{transcript}"`. -/
def chunkMarker (i startMin : ℕ) (t : String) : String :=
  "[Chunk " ++ toString (i + 1) ++ " - starts at " ++ toString startMin ++ ":00]\n" ++ t

/-- The `for i, chunk_path in enumerate(chunks)` loop of
`transcribe_audio_chunked`: each chunk goes through `transcribe_audio`;
a successful transcript gets the marker when timestamps are on and the
offset is positive; a `TranscriptionError` degrades to the placeholder
and the loop continues; a `FileNotFoundError` propagates; the
rate-limit sleep runs after every non-final chunk (also after a caught
failure, as in the source, where the sleep sits outside the
try/except). -/
def chunkLoop (w : World) (api_key : Option String) (language : String)
    (include_timestamps : Bool) (chunk_duration_minutes delay : ℕ)
    (chunks : List String) (i total_chunks : ℕ) :
    Except TransError (List String) × List Event :=
  match chunks with
  | [] => (.ok [], [])
  | p :: rest =>
    let tr := transcribe_audio w p api_key language include_timestamps
    let chunk_start_minutes := i * chunk_duration_minutes
    let sleepEvs : List Event :=
      if i < total_chunks - 1 && 0 < delay then [.sleep delay] else []
    match tr.1 with
    | .error e =>
      if e.isTranscriptionError then
        let r := chunkLoop w api_key language include_timestamps
          chunk_duration_minutes delay rest (i + 1) total_chunks
        ((r.1.map (placeholder i :: ·) : Except TransError (List String)),
         tr.2 ++ sleepEvs ++ r.2)
      else (.error e, tr.2)
    | .ok t =>
      let t' := if include_timestamps && 0 < chunk_start_minutes then
          chunkMarker i chunk_start_minutes t
        else t
      let r := chunkLoop w api_key language include_timestamps
        chunk_duration_minutes delay rest (i + 1) total_chunks
      ((r.1.map (t' :: ·) : Except TransError (List String)),
       tr.2 ++ sleepEvs ++ r.2)

/-- `transcribe_audio_chunked`: probe the total duration; at or below
one chunk, delegate to `transcribe_audio`; otherwise split (inside a
temp directory whose nondeterministic name is the `temp_dir`
parameter), transcribe chunk by chunk, and join the per-chunk texts
with a blank line. -/
def transcribe_audio_chunked (w : World) (audio_path : String)
    (api_key : Option String) (language : String)
    (chunk_duration_minutes delay_between_chunks : ℕ)
    (include_timestamps : Bool) (temp_dir : String) :
    Except TransError String × List Event :=
  if !w.fileExists audio_path then (.error (.fileNotFound audio_path), [])
  else
    match get_audio_duration w audio_path with
    | (.error e, evs) => (.error e, evs)
    | (.ok total, evs) =>
      let chunk_duration_seconds := chunk_duration_minutes * 60
      if total ≤ (chunk_duration_seconds : ℚ) then
        let r := transcribe_audio w audio_path api_key language include_timestamps
        (r.1, evs ++ r.2)
      else
        match split_audio w audio_path temp_dir chunk_duration_seconds with
        | (.error e, evs2) => (.error e, evs ++ evs2)
        | (.ok chunks, evs2) =>
          let r := chunkLoop w api_key language include_timestamps
            chunk_duration_minutes delay_between_chunks chunks 0 chunks.length
          ((r.1.map (String.intercalate "\n\n") : Except TransError String),
           evs ++ evs2 ++ r.2)

end Transcriber

/-! ## `src/core/audio_extractor.py` -/

namespace AudioExtractor

/-- Failure modes of `extract_audio`, one constructor per raise site. -/
inductive ExtractError where
  | fileNotFound (p : String)
  | ffmpegNotFound (p : String)
  | alreadyExists (p : String)
  | extractionFailed (code : ℕ) (stderr : String)
  | outputMissing (p : String)
  | timedOut
  | subprocessError (msg : String)
deriving DecidableEq, Repr

/-- The external world of the extractor.  `versionProbe` is the outcome
of `subprocess.run([ffmpeg_path, "-version"], ...)`: `some rc` for a
completed run with return code `rc`, `none` when `SubprocessError` or
`FileNotFoundError` is raised (including the 10s probe timeout).
`runExtract` is the encoding run: `some (rc, stderr)` for completion,
`none` for `TimeoutExpired`.  `withSuffixMp3` is the stdlib
`Path.with_suffix(".mp3")`. -/
structure World where
  fileExists : String → Bool
  isFile : String → Bool
  versionProbe : String → Option ℕ
  runExtract : List String → Option (ℕ × String)
  outputExistsAfter : String → Bool
  withSuffixMp3 : String → String

/-- argv of the availability probe. -/
def checkArgv (ffmpeg_path : String) : List String :=
  [ffmpeg_path, "-version"]

/-- `check_ffmpeg`: run the version probe and succeed on return code 0;
any `SubprocessError`/`FileNotFoundError` yields `False`.  The event
list records the probe invocation. -/
def check_ffmpeg (w : World) (ffmpeg_path : String) : Bool × List (List String) :=
  (match w.versionProbe ffmpeg_path with
   | some rc => rc = 0
   | none => false,
   [checkArgv ffmpeg_path])

/-- argv of the extraction run (`-y`/`-n` chosen by `overwrite`). -/
def extractArgv (ffmpeg_path video_path : String) (audio_codec audio_quality : String)
    (overwrite : Bool) (output_path : String) : List String :=
  [ffmpeg_path, "-i", video_path, "-vn", "-acodec", audio_codec,
   "-q:a", audio_quality, if overwrite then "-y" else "-n", output_path]

/-- `extract_audio`: validate the input, probe ffmpeg, refuse to
overwrite, run the encoder, and check its exit status and output file.
The second component is the list of subprocess invocations (argv) the
call performed, in order. -/
def extract_audio (w : World) (video_path : String)
    (output_path? : Option String) (ffmpeg_path : String)
    (audio_codec audio_quality : String) (overwrite : Bool) :
    Except ExtractError String × List (List String) :=
  if !w.fileExists video_path then (.error (.fileNotFound video_path), [])
  else if !w.isFile video_path then (.error (.fileNotFound video_path), [])
  else
    let chk := check_ffmpeg w ffmpeg_path
    if !chk.1 then (.error (.ffmpegNotFound ffmpeg_path), chk.2)
    else
      let output_path := match output_path? with
        | none => w.withSuffixMp3 video_path
        | some p => p
      -- `if output_path.exists() and not overwrite:`
      if w.fileExists output_path && !overwrite then
        (.error (.alreadyExists output_path), chk.2)
      else
        let cmd := extractArgv ffmpeg_path video_path audio_codec audio_quality
          overwrite output_path
        match w.runExtract cmd with
        | none => (.error .timedOut, chk.2 ++ [cmd])
        | some (rc, stderr) =>
          if rc ≠ 0 then (.error (.extractionFailed rc stderr), chk.2 ++ [cmd])
          else if !w.outputExistsAfter output_path then
            (.error (.outputMissing output_path), chk.2 ++ [cmd])
          else (.ok output_path, chk.2 ++ [cmd])

end AudioExtractor

/-! ## Derived definitions used in the claim statements -/

namespace Summarizer

/-- The label that opens a given field (the keys of `field_mapping`). -/
def labelOf : Field → String
  | .youtube_title => "YOUTUBE_TITLE:"
  | .youtube_description => "YOUTUBE_DESCRIPTION:"
  | .spotify_title => "SPOTIFY_TITLE:"
  | .spotify_description => "SPOTIFY_DESCRIPTION:"
  | .tags => "TAGS:"

end Summarizer

namespace Transcriber

/-- The text the chunk loop records for chunk `i` at path `p`: a
successful transcript (with the boundary marker when timestamps are on
and the offset is positive), or the placeholder when that chunk
transcription raised a `TranscriptionError`. -/
def perChunkText (w : World) (api_key : Option String) (language : String)
    (include_timestamps : Bool) (chunk_duration_minutes : ℕ)
    (i : ℕ) (p : String) : String :=
  match (transcribe_audio w p api_key language include_timestamps).1 with
  | .ok t =>
      if include_timestamps && 0 < i * chunk_duration_minutes then
        chunkMarker i (i * chunk_duration_minutes) t
      else t
  | .error _ => placeholder i

end Transcriber

/-! ## Concrete worlds used by the witnesses and counterexamples -/

/-- A downloader world: URL parses as https with a host, the request
succeeds with status 200 and an empty body. -/
def dlWorld : Downloader.World := {
  urlparse := fun _ => some ⟨"https", "example.com", "/rec/video.mp4"⟩
  httpGet := fun _ => .ok ⟨200, some 0, []⟩ }

/-- An extractor world: input and output files exist, the version probe
succeeds. -/
def exWorld : AudioExtractor.World := {
  fileExists := fun _ => true
  isFile := fun _ => true
  versionProbe := fun _ => some 0
  runExtract := fun _ => some (0, "")
  outputExistsAfter := fun _ => true
  withSuffixMp3 := fun p => p ++ ".mp3" }

/-- A transcriber world: every file exists, the probed duration is 90
seconds, splitting and the AI calls succeed, and no credential sits in
the environment. -/
def okTransWorld : Transcriber.World := {
  fileExists := fun _ => true
  isFile := fun _ => true
  envKey := none
  ffprobeOut := fun _ => some 90
  ffmpegSplitOk := fun _ _ => true
  upload := fun _ => .ok ()
  generate := fun _ p => .ok ("transcript of " ++ p) }

/-- Like `okTransWorld` but the upload of the first chunk file raises. -/
def failChunkWorld : Transcriber.World := {
  fileExists := fun _ => true
  isFile := fun _ => true
  envKey := none
  ffprobeOut := fun _ => some 90
  ffmpegSplitOk := fun _ _ => true
  upload := fun p => if p = Transcriber.chunkName "tmp" 0 then .error "boom" else .ok ()
  generate := fun _ p => .ok ("transcript of " ++ p) }

/-- A summarizer world with no credential in the environment. -/
def sumWorld : Summarizer.World := {
  envKey := none
  generate := fun _ => .ok "reply" }

/-! ## Helper lemmas about the Python string primitives -/

lemma str_eq_of_data_eq {s t : String} (h : s.data = t.data) : s = t := by
  cases s; cases t; exact congrArg String.mk h

lemma pyStripOn_data (p : Char → Bool) (s : String) :
    (pyStripOn p s).data = List.rdropWhile p (s.data.dropWhile p) := rfl

lemma head?_of_isPrefix {α : Type} {l m : List α} (h : l <+: m) (hne : l ≠ []) :
    m.head? = l.head? := by
  obtain ⟨t, rfl⟩ := h
  cases l with
  | nil => exact absurd rfl hne
  | cons a t2 => rfl

/-- A stripped string never starts with a character in the stripped set. -/
lemma pyStripOn_head_not (p : Char → Bool) (s : String) (c : Char)
    (h : (pyStripOn p s).data.head? = some c) : p c = false := by
  rw [pyStripOn_data] at h
  have hne : List.rdropWhile p (s.data.dropWhile p) ≠ [] := by
    intro hnil; rw [hnil] at h; simp at h
  have hpre := List.rdropWhile_prefix p (s.data.dropWhile p)
  have h2 : (s.data.dropWhile p).head? = some c := by
    rw [head?_of_isPrefix hpre hne]; exact h
  rcases hd : s.data.dropWhile p with _ | ⟨a, t⟩
  · rw [hd] at h2; simp at h2
  · have hnn : s.data.dropWhile p ≠ [] := by rw [hd]; simp
    have := List.head_dropWhile_not p s.data hnn
    rw [hd] at h2
    simp only [List.head?_cons, Option.some.injEq] at h2
    have ha : (s.data.dropWhile p).head hnn = a := by simp [hd]
    rw [ha] at this
    subst h2
    simpa using this

/-- A stripped string never ends with a character in the stripped set. -/
lemma pyStripOn_last_not (p : Char → Bool) (s : String) (c : Char)
    (h : (pyStripOn p s).data.getLast? = some c) : p c = false := by
  rw [pyStripOn_data] at h
  have hne : List.rdropWhile p (s.data.dropWhile p) ≠ [] := by
    intro hnil; rw [hnil] at h; simp at h
  have hlast := List.rdropWhile_last_not p (s.data.dropWhile p) hne
  rw [List.getLast?_eq_getLast _ hne] at h
  simp only [Option.some.injEq] at h
  rw [h] at hlast
  simpa using hlast

/-- Stripping is the identity when neither end satisfies the predicate. -/
lemma pyStripOn_eq_self (p : Char → Bool) (s : String)
    (h1 : ∀ c, s.data.head? = some c → p c = false)
    (h2 : ∀ c, s.data.getLast? = some c → p c = false) :
    pyStripOn p s = s := by
  apply str_eq_of_data_eq
  rw [pyStripOn_data]
  have hd : s.data.dropWhile p = s.data := by
    rcases hl : s.data with _ | ⟨a, t⟩
    · simp
    · rw [List.dropWhile_cons]
      have := h1 a (by rw [hl]; rfl)
      simp [this]
  rw [hd]
  apply List.rdropWhile_eq_self_iff.mpr
  intro hl
  have := h2 _ (List.getLast?_eq_getLast _ hl)
  simp [this]

/-- Stripping a string all of whose characters satisfy the predicate
gives the empty string. -/
lemma pyStripOn_all (p : Char → Bool) (s : String)
    (h : ∀ c ∈ s.data, p c = true) :
    pyStripOn p s = "" := by
  apply str_eq_of_data_eq
  rw [pyStripOn_data]
  have hd : s.data.dropWhile p = [] := List.dropWhile_eq_nil_iff.mpr (fun x hx => by
    simpa using h x hx)
  rw [hd]
  simp [List.rdropWhile]

/-- Characters of a stripped string come from the original string. -/
lemma mem_of_mem_pyStripOn (p : Char → Bool) (s : String) (c : Char)
    (h : c ∈ (pyStripOn p s).data) : c ∈ s.data := by
  rw [pyStripOn_data] at h
  have h1 : c ∈ s.data.dropWhile p :=
    (List.rdropWhile_prefix p _).sublist.mem h
  exact (List.dropWhile_suffix p).sublist.mem h1

/-! ## Claim C3: `sanitize_filename` -/

namespace Downloader

/-- The sequential single-character replaces of `sanitize_filename`
amount to one pointwise map over the characters. -/
lemma foldl_replace_data (l : List Char) (s : String) :
    (l.foldl (fun acc c => pyReplaceChar acc c '_') s).data
      = s.data.map (fun x => if x ∈ l then '_' else x) := by
  induction l generalizing s with
  | nil => simp
  | cons a t ih =>
    rw [List.foldl_cons, ih (pyReplaceChar s a '_')]
    show (pyReplaceChar s a '_').data.map _ = _
    have hdata : (pyReplaceChar s a '_').data
        = s.data.map (fun x => if x = a then '_' else x) := rfl
    rw [hdata, List.map_map]
    apply List.map_congr_left
    intro x _
    by_cases hx : x = a <;> simp [hx, List.mem_cons]

lemma replaceInvalid_data (s : String) :
    (replaceInvalid s).data
      = s.data.map (fun x => if x ∈ invalid_chars then '_' else x) :=
  foldl_replace_data invalid_chars s

end Downloader

/-- C3 (counterexample): the claim says an all-invalid input maps to the
fixed default name, but the input `"<"` — every character of which is
one of the invalid characters — sanitizes to `"_"` (invalid characters
are replaced by underscores, not removed), not to `"download"`. -/
theorem sanitize_filename_all_invalid_cex :
    Downloader.sanitize_filename "<" = "_" ∧
    (∀ c ∈ ("<").data, c ∈ Downloader.invalid_chars) ∧
    ("_" : String) ≠ "download" := by
  refine ⟨by decide, by decide, by decide⟩

/-- C3 (amended): `sanitize_filename` replaces each occurrence of
`<>:"/\|?*` with an underscore (the output never contains one of them),
trims leading/trailing spaces and dots, caps the result at 200
characters, never returns an empty name, and maps an input that is
empty after replacement and trimming — in particular the empty string
or an input made of dots and spaces only — to the fixed default name
`"download"`; it is idempotent on non-empty already-safe names (no
invalid characters, no leading/trailing space or dot, length at most
200).  An all-invalid input, by contrast, becomes a string of
underscores. -/
theorem sanitize_filename_spec (s : String) :
    (∀ c ∈ (Downloader.sanitize_filename s).data, c ∉ Downloader.invalid_chars) ∧
    (Downloader.sanitize_filename s).length ≤ 200 ∧
    Downloader.sanitize_filename s ≠ "" ∧
    ((∀ c ∈ s.data, c ∉ Downloader.invalid_chars) →
      (∀ c, s.data.head? = some c → ¬(c = '.' ∨ c = ' ')) →
      (∀ c, s.data.getLast? = some c → ¬(c = '.' ∨ c = ' ')) →
      s.length ≤ 200 → s ≠ "" →
      Downloader.sanitize_filename s = s) ∧
    ((∀ c ∈ s.data, c = '.' ∨ c = ' ') →
      Downloader.sanitize_filename s = "download") := by
  set f1 := Downloader.replaceInvalid s with hf1
  set f2 := pyStripOn (fun c => c = '.' || c = ' ') f1 with hf2
  set f3 := (if f2.length > 200 then pyTake f2 200 else f2) with hf3
  have hsan : Downloader.sanitize_filename s = if f3 = "" then "download" else f3 := rfl
  have hmem2 : ∀ c ∈ f2.data, c ∈ f1.data := fun c hc =>
    mem_of_mem_pyStripOn _ _ c hc
  have hmem3 : ∀ c ∈ f3.data, c ∈ f2.data := by
    intro c hc
    rw [hf3] at hc
    split at hc
    · exact List.take_subset _ _ hc
    · exact hc
  have hnoinv : ∀ c ∈ f3.data, c ∉ Downloader.invalid_chars := by
    intro c hc hinv
    have h1 : c ∈ f1.data := hmem2 c (hmem3 c hc)
    rw [hf1, Downloader.replaceInvalid_data] at h1
    simp only [List.mem_map] at h1
    obtain ⟨x, _, hx⟩ := h1
    by_cases hxm : x ∈ Downloader.invalid_chars
    · rw [if_pos hxm] at hx; rw [← hx] at hinv
      exact absurd hinv (by decide)
    · rw [if_neg hxm] at hx; rw [← hx] at hinv; exact hxm hinv
  have hstrlen : ∀ t : String, t.length = t.data.length := fun _ => rfl
  have hlen3 : f3.length ≤ 200 := by
    rw [hf3]
    split
    · rw [hstrlen]
      show (f2.data.take 200).length ≤ 200
      rw [List.length_take]
      omega
    · omega
  refine ⟨?_, ?_, ?_, ?_, ?_⟩
  · -- no invalid characters in the output
    rw [hsan]
    split
    · decide
    · exact hnoinv
  · -- length bound
    rw [hsan]
    split
    · decide
    · exact hlen3
  · -- never empty
    rw [hsan]
    split
    · decide
    · assumption
  · -- idempotence on non-empty safe names
    intro hinv hhd htl hlen hne
    have h1 : f1 = s := by
      apply str_eq_of_data_eq
      rw [hf1, Downloader.replaceInvalid_data]
      conv_rhs => rw [← List.map_id s.data]
      apply List.map_congr_left
      intro x hx
      rw [if_neg (hinv x hx)]
      rfl
    have h2 : f2 = s := by
      rw [hf2, h1]
      apply pyStripOn_eq_self
      · intro c hc
        have h := hhd c hc
        push_neg at h
        simp [h.1, h.2]
      · intro c hc
        have h := htl c hc
        push_neg at h
        simp [h.1, h.2]
    have h3 : f3 = s := by
      rw [hf3, h2, if_neg (by omega)]
    rw [hsan, h3, if_neg hne]
  · -- all-dots-and-spaces input maps to the default
    intro hall
    have h1 : f1 = s := by
      apply str_eq_of_data_eq
      rw [hf1, Downloader.replaceInvalid_data]
      conv_rhs => rw [← List.map_id s.data]
      apply List.map_congr_left
      intro x hx
      rcases hall x hx with h | h <;> subst h <;> decide
    have h2 : f2 = "" := by
      rw [hf2, h1]
      apply pyStripOn_all
      intro c hc
      rcases hall c hc with h | h <;> subst h <;> decide
    have h3 : f3 = "" := by rw [hf3, h2]; decide
    rw [hsan, h3, if_pos rfl]

/-- C3 (witness): concrete instances of the amended theorem — a safe
name is a fixed point, an all-dots input gives the default, and the
output of sanitization never contains an invalid character. -/
theorem sanitize_filename_spec_witness :
    Downloader.sanitize_filename "episode_01.mp4" = "episode_01.mp4" ∧
    Downloader.sanitize_filename "..." = "download" ∧
    (∀ c ∈ (Downloader.sanitize_filename "a<b|c").data, c ∉ Downloader.invalid_chars) :=
  ⟨(sanitize_filename_spec "episode_01.mp4").2.2.2.1 (by decide) (by decide)
      (by decide) (by decide) (by decide),
   (sanitize_filename_spec "...").2.2.2.2 (by decide),
   (sanitize_filename_spec "a<b|c").1⟩

/-! ## Claim C10: `_parse_tags` -/

/-- C10 (counterexample): the claim says every parsed tag carries no
leading or trailing whitespace, but `"# a"` parses to `[" a"]` — the
whitespace strip happens before the `#` strip, so whitespace that sat
inside the `#` characters survives at the edges (the element differs
from its whitespace-trimmed form). -/
theorem parse_tags_whitespace_cex :
    Summarizer.parse_tags "# a" = [" a"] ∧ pyStrip " a" ≠ " a" := by
  refine ⟨by decide, by decide⟩

/-- C10 (amended): every element of `_parse_tags` is non-empty and
carries no leading or trailing `#` character, and the output lists, in
order, exactly the non-empty cleaned pieces obtained by turning
newlines into commas, splitting on commas and stripping each piece of
whitespace and then of `#` (so edge whitespace that was inside the
`#` characters may remain). -/
theorem parse_tags_spec (s : String) :
    Summarizer.parse_tags s
      = ((pySplitChar ',' (pyReplaceChar s '\n' ',')).map
          (fun tag => pyStripOn (fun c => c = '#') (pyStrip tag))).filter
            (fun tag => tag ≠ "") ∧
    ∀ t ∈ Summarizer.parse_tags s,
      t ≠ "" ∧
      (∀ c, t.data.head? = some c → c ≠ '#') ∧
      (∀ c, t.data.getLast? = some c → c ≠ '#') := by
  constructor
  · rfl
  · intro t ht
    have hmem := ht
    rw [Summarizer.parse_tags] at hmem
    simp only [List.mem_filter, List.mem_map, decide_not] at hmem
    obtain ⟨⟨x, _, hx⟩, hne⟩ := hmem
    refine ⟨by simpa using hne, ?_, ?_⟩
    · intro c hc hch
      subst hch
      have := pyStripOn_head_not (fun c => c = '#') (pyStrip x) _ (hx ▸ hc)
      simp at this
    · intro c hc hch
      subst hch
      have := pyStripOn_last_not (fun c => c = '#') (pyStrip x) _ (hx ▸ hc)
      simp at this

/-- C10 (witness): the amended theorem applied to the concrete input
of the spec example — all three parsed tags are non-empty and free of
edge `#`. -/
theorem parse_tags_spec_witness :
    ("a" ∈ Summarizer.parse_tags "#a, #b\n#c" ∧ ("a" : String) ≠ "") ∧
    Summarizer.parse_tags "#a, #b\n#c" = ["a", "b", "c"] :=
  ⟨⟨by decide, ((parse_tags_spec "#a, #b\n#c").2 "a" (by decide)).1⟩, by decide⟩

/-! ## Claim C2: label-driven response parsing -/

/-- C2: the five-line reply with each line starting with its label
parses to exactly the expected bundle; label matching is
case-insensitive (the all-lowercase variant parses identically); and a
non-label line is appended to the currently open field (the `Y2` line
joins the open description buffer with a newline). -/
theorem parse_response_concrete :
    Summarizer.parse_response
        "YOUTUBE_TITLE: X\nYOUTUBE_DESCRIPTION: Y\nSPOTIFY_TITLE: Z\nSPOTIFY_DESCRIPTION: W\nTAGS: a, b, c"
        "fallback" true
      = ⟨"X", "Y", "Z", "W", ["a", "b", "c"]⟩ ∧
    Summarizer.parse_response
        "youtube_title: X\nyoutube_description: Y\nspotify_title: Z\nspotify_description: W\ntags: a, b, c"
        "fallback" true
      = ⟨"X", "Y", "Z", "W", ["a", "b", "c"]⟩ ∧
    Summarizer.parse_response "YOUTUBE_DESCRIPTION: Y1\nY2\nSPOTIFY_TITLE: Z" "fb" true
      = ⟨"fb", "Y1\nY2", "Z", "", []⟩ := by
  refine ⟨by decide, by decide, by decide⟩


/-! ## Claim C9: raw-line slicing in label detection -/

/-- C9: a line is recognized as a label line by its whitespace-stripped
uppercased form, but the initial field content is the RAW line sliced
at the label length.  For a label line without leading whitespace the
extracted content equals the trimmed text after the label occurrence;
for the concrete line `"  YOUTUBE_TITLE: Hello"` (leading whitespace)
the extracted content is `"E: Hello"`, which differs from the text
after the label, `"Hello"`. -/
theorem findField_raw_slice :
    (∀ (line : String) (f : Summarizer.Field) (content : String),
       (∀ c, line.data.head? = some c → isPyWs c = false) →
       Summarizer.findField line = some (f, content) →
       content = pyStrip (pyDrop (pyStripLeft line) (Summarizer.labelOf f).length)) ∧
    Summarizer.findField "  YOUTUBE_TITLE: Hello"
      = some (.youtube_title, "E: Hello") ∧
    pyStrip (pyDrop (pyStripLeft "  YOUTUBE_TITLE: Hello")
        (Summarizer.labelOf .youtube_title).length) = "Hello" ∧
    ("E: Hello" : String) ≠ "Hello" := by
  refine ⟨?_, by decide, by decide, by decide⟩
  intro line f content hws hf
  have hleft : pyStripLeft line = line := by
    apply str_eq_of_data_eq
    show line.data.dropWhile isPyWs = line.data
    rcases hl : line.data with _ | ⟨a, t⟩
    · simp
    · rw [List.dropWhile_cons]
      have := hws a (by rw [hl]; rfl)
      simp [this]
  rw [hleft]
  revert hf
  simp only [Summarizer.findField, Summarizer.findFieldAux, Summarizer.field_mapping]
  split_ifs <;> intro hf <;>
    simp only [Option.some.injEq, Prod.mk.injEq] at hf
  · obtain ⟨rfl, rfl⟩ := hf; rfl
  · obtain ⟨rfl, rfl⟩ := hf; rfl
  · obtain ⟨rfl, rfl⟩ := hf; rfl
  · obtain ⟨rfl, rfl⟩ := hf; rfl
  · obtain ⟨rfl, rfl⟩ := hf; rfl

/-- C9 (witness): on a label line with no leading whitespace the
extracted content is exactly the trimmed text after the label. -/
theorem findField_raw_slice_witness :
    ("Hi" : String) = pyStrip (pyDrop (pyStripLeft "YOUTUBE_TITLE: Hi")
        (Summarizer.labelOf .youtube_title).length) :=
  findField_raw_slice.1 "YOUTUBE_TITLE: Hi" .youtube_title "Hi" (by decide) (by decide)

/-! ## Claim C8: absent labels keep defaults -/

lemma getField_saveField_ne (r : Summarizer.ParseResult) (g f : Summarizer.Field)
    (cc : List String) (h : g ≠ f) :
    Summarizer.getField (Summarizer.saveField r g cc) f = Summarizer.getField r f := by
  cases g <;> cases f <;>
    first
      | exact absurd rfl h
      | simp [Summarizer.saveField, Summarizer.getField]

/-- One unfolding step of the parse loop on a cons cell. -/
lemma parseLoop_cons (line : String) (rest : List String)
    (cf : Option Summarizer.Field) (cc : List String)
    (r : Summarizer.ParseResult) :
    Summarizer.parseLoop (line :: rest) cf cc r =
      (match Summarizer.findField line with
       | some (g, content) =>
           Summarizer.parseLoop rest (some g)
             (if content ≠ "" then [content] else [])
             (match cf with
              | some g2 => if cc ≠ [] then Summarizer.saveField r g2 cc else r
              | none => r)
       | none =>
           match cf with
           | some _ => Summarizer.parseLoop rest cf (cc ++ [line]) r
           | none => Summarizer.parseLoop rest none cc r) := rfl

/-- A field no line of `lines` opens (and that is not currently being
accumulated) is untouched by the parse loop. -/
lemma parseLoop_preserves (f : Summarizer.Field) :
    ∀ (lines : List String) (cf : Option Summarizer.Field) (cc : List String)
      (r : Summarizer.ParseResult),
      (∀ line ∈ lines, Summarizer.fieldOf line ≠ some f) →
      cf ≠ some f →
      Summarizer.getField (Summarizer.parseLoop lines cf cc r) f
        = Summarizer.getField r f := by
  intro lines
  induction lines with
  | nil =>
    intro cf cc r _ hcf
    cases cf with
    | none => rfl
    | some g =>
      show Summarizer.getField
        (if cc ≠ [] then Summarizer.saveField r g cc else r) f = _
      split
      · exact getField_saveField_ne r g f cc (fun hg => hcf (by rw [hg]))
      · rfl
  | cons line rest ih =>
    intro cf cc r hall hcf
    have hline : Summarizer.fieldOf line ≠ some f := hall line (by simp)
    have hrest : ∀ l ∈ rest, Summarizer.fieldOf l ≠ some f :=
      fun l hl => hall l (by simp [hl])
    rw [parseLoop_cons]
    cases hfl : Summarizer.findField line with
    | some gc =>
      obtain ⟨g, content⟩ := gc
      have hg : g ≠ f := by
        intro hgf
        apply hline
        rw [Summarizer.fieldOf, hfl, hgf]
        rfl
      rw [ih (some g) _ _ hrest (by simpa using hg)]
      cases cf with
      | none => rfl
      | some g2 =>
        have hg2 : g2 ≠ f := fun h2 => hcf (by rw [h2])
        show Summarizer.getField
          (if cc ≠ [] then Summarizer.saveField r g2 cc else r) f = _
        split
        · exact getField_saveField_ne r g2 f cc hg2
        · rfl
    | none =>
      cases cf with
      | some g => exact ih (some g) (cc ++ [line]) r hrest hcf
      | none => exact ih none cc r hrest hcf

/-- C8: any description-bundle field for which the reply contains no
label line keeps its default — the title fields stay at the caller
episode title, the description fields stay empty, tags stay empty. -/
theorem parse_response_missing_field_default (text fb : String) (inc : Bool)
    (f : Summarizer.Field)
    (h : ∀ line ∈ pySplitChar '\n' (pyStrip text),
        Summarizer.fieldOf line ≠ some f) :
    Summarizer.getField (Summarizer.parse_response text fb inc) f
      = Summarizer.getField (Summarizer.initResult fb) f := by
  have hmain := parseLoop_preserves f (pySplitChar '\n' (pyStrip text)) none []
    (Summarizer.initResult fb) h (by simp)
  have hpr : Summarizer.parse_response text fb inc =
      (if inc then
        Summarizer.parseLoop (pySplitChar '\n' (pyStrip text)) none []
          (Summarizer.initResult fb)
       else
        { Summarizer.parseLoop (pySplitChar '\n' (pyStrip text)) none []
            (Summarizer.initResult fb) with tags := [] }) := rfl
  rw [hpr]
  cases inc with
  | true => simpa using hmain
  | false =>
    cases f <;>
      simp only [Summarizer.getField, Summarizer.FieldVal.str.injEq,
        Summarizer.FieldVal.tags.injEq] at hmain ⊢ <;>
      first
        | rfl
        | exact hmain.trans rfl

/-- C8 (witness): a reply with no label lines leaves the youtube title
at the fallback. -/
theorem parse_response_missing_field_default_witness :
    Summarizer.getField (Summarizer.parse_response "hello there\nworld" "fb" true)
        Summarizer.Field.youtube_title
      = Summarizer.getField (Summarizer.initResult "fb") Summarizer.Field.youtube_title :=
  parse_response_missing_field_default "hello there\nworld" "fb" true
    Summarizer.Field.youtube_title (by decide)

/-! ## Claim C5: zero-byte download -/

/-- C5: when the request succeeds (status below 400) but the streamed
body totals zero bytes, the download raises the download-failed error
for an empty file, and the freshly created empty file is deleted before
the error — no file remains at the output path. -/
theorem download_empty_body (w : Downloader.World) (url output_dir : String)
    (filename? : Option String) (timeout : ℕ) (resp : Downloader.HttpResponse)
    (hurl : url ≠ "")
    (hval : Downloader.validate_url w url = true)
    (hget : w.httpGet url = .ok resp)
    (hst : resp.status < 400)
    (hbody : resp.body.sum = 0) :
    Downloader.download_clubhouse_video w url output_dir filename? timeout
      = (.error .emptyFile, none) := by
  rw [Downloader.download_clubhouse_video.eq_def]
  rw [if_neg (by simp [hurl, hval])]
  rw [hget]
  simp only
  rw [if_neg (by omega), hbody]
  rfl

/-- C5 (witness): a concrete zero-byte 200 response leaves an error and
no file. -/
theorem download_empty_body_witness :
    Downloader.download_clubhouse_video dlWorld "https://example.com/rec/video.mp4"
        "out" none 3600
      = (.error .emptyFile, none) :=
  download_empty_body dlWorld "https://example.com/rec/video.mp4" "out" none 3600
    ⟨200, some 0, []⟩ (by decide) (by decide) rfl (by decide) (by decide)

/-! ## Claim C6: refuse to overwrite -/

/-- C6: with an existing input file, a working encoder probe, an
existing output path and no overwrite flag, extraction fails with the
already-exists error; the only external invocation of the whole call is
the version probe — the encoder is never invoked to extract (no
extraction argv appears in the trace). -/
theorem extract_audio_no_overwrite (w : AudioExtractor.World)
    (video out ffmpeg_path codec quality : String)
    (h1 : w.fileExists video = true)
    (h2 : w.isFile video = true)
    (h3 : (AudioExtractor.check_ffmpeg w ffmpeg_path).1 = true)
    (h4 : w.fileExists out = true) :
    AudioExtractor.extract_audio w video (some out) ffmpeg_path codec quality false
      = (.error (.alreadyExists out), [AudioExtractor.checkArgv ffmpeg_path]) ∧
    AudioExtractor.extractArgv ffmpeg_path video codec quality false out
      ∉ (AudioExtractor.extract_audio w video (some out) ffmpeg_path codec quality false).2 := by
  have hres : AudioExtractor.extract_audio w video (some out) ffmpeg_path codec quality false
      = (.error (.alreadyExists out), [AudioExtractor.checkArgv ffmpeg_path]) := by
    rw [AudioExtractor.extract_audio]
    rw [if_neg (by simp [h1]), if_neg (by simp [h2])]
    have hchk : AudioExtractor.check_ffmpeg w ffmpeg_path
        = (true, [AudioExtractor.checkArgv ffmpeg_path]) := by
      have := h3
      rw [AudioExtractor.check_ffmpeg] at this ⊢
      simp only at this
      rw [this]
    rw [hchk]
    simp [h4]
  refine ⟨hres, ?_⟩
  rw [hres]
  simp [AudioExtractor.extractArgv, AudioExtractor.checkArgv]

/-- C6 (witness): the already-exists failure with the probe as the only
invocation, at a concrete world. -/
theorem extract_audio_no_overwrite_witness :
    AudioExtractor.extract_audio exWorld "in.mp4" (some "out.mp3") "ffmpeg" "libmp3lame" "2" false
      = (.error (.alreadyExists "out.mp3"), [AudioExtractor.checkArgv "ffmpeg"]) :=
  (extract_audio_no_overwrite exWorld "in.mp4" "out.mp3" "ffmpeg" "libmp3lame" "2"
    rfl rfl (by decide) rfl).1

/-! ## Claim C1: chunked transcription machinery -/

/-- Ceiling-count arithmetic: one loop pass decrements the remaining
chunk count. -/
lemma ceil_chunks_step {d : ℚ} {c : ℕ} (hc : 0 < c) {start : ℕ}
    (h : (start : ℚ) < d) :
    ⌈(d - start) / c⌉.toNat = ⌈(d - ((start + c : ℕ) : ℚ)) / c⌉.toNat + 1 := by
  have hc2 : (0 : ℚ) < c := by exact_mod_cast hc
  have key : (d - ((start + c : ℕ) : ℚ)) / c = (d - start) / c - 1 := by
    push_cast
    field_simp
    ring
  rw [key, Int.ceil_sub_one]
  have hpos : 0 < ⌈(d - start) / c⌉ :=
    Int.ceil_pos.mpr (div_pos (by linarith) hc2)
  omega

/-- Once the start runs past the duration, no chunks remain. -/
lemma ceil_chunks_zero {d : ℚ} {c : ℕ} {start : ℕ}
    (h : ¬ (start : ℚ) < d) :
    ⌈(d - start) / c⌉.toNat = 0 := by
  have hle : (d - start) / c ≤ 0 := by
    apply div_nonpos_iff.mpr
    right
    constructor
    · linarith [not_lt.mp h]
    · positivity
  have : ⌈(d - start) / c⌉ ≤ 0 := by
    rw [show (0 : ℤ) = ⌈(0 : ℚ)⌉ by simp]
    exact Int.ceil_le_ceil hle
  omega

/-- When every ffmpeg split succeeds, the split loop returns the chunk
paths `chunk_num, chunk_num+1, ...`, one for every started multiple of
the chunk duration below the total duration — `⌈(d-start)/c⌉` many. -/
lemma splitLoop_names (w : Transcriber.World) (a o : String) (c : ℕ) (d : ℚ)
    (hok : ∀ s, w.ffmpegSplitOk a s = true) (hc : 0 < c) :
    ∀ (n start num : ℕ), ⌈d⌉.toNat - start < n →
      (Transcriber.splitLoop w a o c d start num).1
        = .ok ((List.range (⌈(d - start) / c⌉.toNat)).map
            (fun k => Transcriber.chunkName o (num + k))) := by
  intro n
  induction n with
  | zero => intro start num h; omega
  | succ n ih =>
    intro start num hn
    rw [Transcriber.splitLoop]
    by_cases hlt : (start : ℚ) < d
    · rw [dif_pos ⟨hc, hlt⟩]
      simp only [hok, if_true]
      have hstart : start < ⌈d⌉.toNat := by
        have h1 : (start : ℤ) < ⌈d⌉ := by
          exact_mod_cast lt_of_lt_of_le hlt (Int.le_ceil d)
        omega
      have hrec := ih (start + c) (num + 1) (by omega)
      simp only [hrec, Except.map, ceil_chunks_step hc hlt,
        List.range_succ_eq_map, List.map_cons, List.map_map]
      simp only [Except.ok.injEq, List.cons.injEq]
      refine ⟨by simp, ?_⟩
      apply List.map_congr_left
      intro k _
      simp only [Function.comp]
      congr 1
      omega
    · rw [dif_neg (by tauto)]
      rw [ceil_chunks_zero hlt]
      simp

/-- The split loop invokes ffmpeg once per chunk, at consecutive
multiples of the chunk duration, each with the fixed requested length
`c` (the last segment of the audio may of course be shorter than the
requested `-t c`). -/
lemma splitLoop_events (w : Transcriber.World) (a o : String) (c : ℕ) (d : ℚ)
    (hok : ∀ s, w.ffmpegSplitOk a s = true) (hc : 0 < c) :
    ∀ (n start num : ℕ), ⌈d⌉.toNat - start < n →
      (Transcriber.splitLoop w a o c d start num).2
        = (List.range (⌈(d - start) / c⌉.toNat)).map
            (fun k => Transcriber.Event.subprocess
              (Transcriber.ffmpegSplitArgv "ffmpeg" a (start + k * c) c
                (Transcriber.chunkName o (num + k)))) := by
  intro n
  induction n with
  | zero => intro start num h; omega
  | succ n ih =>
    intro start num hn
    rw [Transcriber.splitLoop]
    by_cases hlt : (start : ℚ) < d
    · rw [dif_pos ⟨hc, hlt⟩]
      simp only [hok, if_true]
      have hstart : start < ⌈d⌉.toNat := by
        have h1 : (start : ℤ) < ⌈d⌉ := by
          exact_mod_cast lt_of_lt_of_le hlt (Int.le_ceil d)
        omega
      have hrec := ih (start + c) (num + 1) (by omega)
      simp only [hrec, ceil_chunks_step hc hlt,
        List.range_succ_eq_map, List.map_cons, List.map_map]
      simp only [List.cons.injEq]
      refine ⟨by simp, ?_⟩
      apply List.map_congr_left
      intro k _
      simp only [Function.comp]
      congr 2
      · simp only [Nat.succ_mul]
        omega
      · congr 1
        omega
    · rw [dif_neg (by tauto)]
      rw [ceil_chunks_zero hlt]
      simp

lemma mapPyExc_isTrans (msg : String) :
    (Transcriber.mapPyExc msg).isTranscriptionError = true := by
  rw [Transcriber.mapPyExc]
  split_ifs <;> rfl

/-- With an existing regular input file, a failure of the single-call
transcription is always a `TranscriptionError` (never the
`FileNotFoundError` the chunk loop would not catch). -/
lemma transcribe_audio_error_isTrans (w : Transcriber.World) (p : String)
    (key : Option String) (lang : String) (ts : Bool)
    (h1 : w.fileExists p = true) (h2 : w.isFile p = true) :
    ∀ e, (Transcriber.transcribe_audio w p key lang ts).1 = .error e →
      e.isTranscriptionError = true := by
  intro e he
  rw [Transcriber.transcribe_audio] at he
  rw [h1, h2] at he
  simp only [Bool.not_true, Bool.false_eq_true, if_false] at he
  rcases hcfg : Transcriber.configure_gemini w key with _ | u
  case error ec =>
    rw [hcfg] at he
    simp only at he
    have : ec = Transcriber.TransError.config := by
      rw [Transcriber.configure_gemini] at hcfg
      split at hcfg
      · exact absurd hcfg (by simp)
      · simpa using hcfg.symm
    simp only [Except.error.injEq] at he
    subst he
    rw [this]
    rfl
  case ok =>
    rw [hcfg] at he
    simp only at he
    rcases hup : w.upload p with um | _
    case error =>
      rw [hup] at he
      simp only [Except.error.injEq] at he
      subst he
      exact mapPyExc_isTrans um
    case ok =>
      rw [hup] at he
      simp only at he
      rcases hgen : w.generate (Transcriber.buildPrompt lang ts) p with gm | text
      case error =>
        rw [hgen] at he
        simp only [Except.error.injEq] at he
        subst he
        exact mapPyExc_isTrans gm
      case ok =>
        rw [hgen] at he
        simp only at he
        split at he
        · simp only [Except.error.injEq] at he
          subst he
          rfl
        · exact absurd he (by simp)

/-- The single-call transcription path spawns no subprocess: its
events are only the hosted-AI calls. -/
lemma transcribe_audio_no_subprocess (w : Transcriber.World) (p : String)
    (key : Option String) (lang : String) (ts : Bool) :
    ∀ argv, Transcriber.Event.subprocess argv
      ∉ (Transcriber.transcribe_audio w p key lang ts).2 := by
  intro argv
  rw [Transcriber.transcribe_audio]
  split
  · simp
  · split
    · simp
    · rcases Transcriber.configure_gemini w key with _ | _
      · simp
      · simp only
        rcases w.upload p with _ | _
        · simp
        · simp only
          rcases w.generate (Transcriber.buildPrompt lang ts) p with _ | _
          · simp
          · simp only
            split <;> simp

/-- One unfolding step of the chunk loop on a cons cell. -/
lemma chunkLoop_cons (w : Transcriber.World) (key : Option String)
    (lang : String) (ts : Bool) (m delay : ℕ) (p : String)
    (rest : List String) (i total : ℕ) :
    Transcriber.chunkLoop w key lang ts m delay (p :: rest) i total =
      (match (Transcriber.transcribe_audio w p key lang ts).1 with
       | .error e =>
           if e.isTranscriptionError then
             ((Transcriber.chunkLoop w key lang ts m delay rest (i + 1) total).1.map
                 (Transcriber.placeholder i :: ·),
              (Transcriber.transcribe_audio w p key lang ts).2
                ++ (if i < total - 1 && 0 < delay then [Transcriber.Event.sleep delay] else [])
                ++ (Transcriber.chunkLoop w key lang ts m delay rest (i + 1) total).2)
           else (.error e, (Transcriber.transcribe_audio w p key lang ts).2)
       | .ok t =>
           ((Transcriber.chunkLoop w key lang ts m delay rest (i + 1) total).1.map
               ((if ts && 0 < i * m then Transcriber.chunkMarker i (i * m) t else t) :: ·),
            (Transcriber.transcribe_audio w p key lang ts).2
              ++ (if i < total - 1 && 0 < delay then [Transcriber.Event.sleep delay] else [])
              ++ (Transcriber.chunkLoop w key lang ts m delay rest (i + 1) total).2)) := rfl

/-- When every chunk file exists, the chunk loop always succeeds and
returns, in order, the per-chunk texts (transcripts, marked transcripts
or placeholders). -/
lemma chunkLoop_ok (w : Transcriber.World) (key : Option String)
    (lang : String) (ts : Bool) (m delay : ℕ) :
    ∀ (chunks : List String) (i total : ℕ),
      (∀ p ∈ chunks, w.fileExists p = true ∧ w.isFile p = true) →
      (Transcriber.chunkLoop w key lang ts m delay chunks i total).1
        = .ok ((List.range chunks.length).map
            (fun k => Transcriber.perChunkText w key lang ts m (i + k) (chunks.getD k ""))) := by
  intro chunks
  induction chunks with
  | nil => intro i total _; rfl
  | cons p rest ih =>
    intro i total hall
    obtain ⟨hp1, hp2⟩ := hall p (by simp)
    have hrest : ∀ q ∈ rest, w.fileExists q = true ∧ w.isFile q = true :=
      fun q hq => hall q (by simp [hq])
    rw [chunkLoop_cons]
    have hlen : (p :: rest).length = rest.length + 1 := rfl
    rw [hlen, List.range_succ_eq_map, List.map_cons, List.map_map]
    have htail : List.map ((fun k => Transcriber.perChunkText w key lang ts m (i + k)
          ((p :: rest).getD k "")) ∘ Nat.succ) (List.range rest.length)
        = List.map (fun k => Transcriber.perChunkText w key lang ts m (i + 1 + k)
            (rest.getD k "")) (List.range rest.length) := by
      apply List.map_congr_left
      intro k _
      simp only [Function.comp, List.getD_cons_succ]
      congr 1
      omega
    rcases htr : (Transcriber.transcribe_audio w p key lang ts).1 with e | t
    · simp only
      rw [if_pos (transcribe_audio_error_isTrans w p key lang ts hp1 hp2 e htr)]
      simp only [ih (i + 1) total hrest, Except.map]
      rw [htail]
      have hhead : Transcriber.perChunkText w key lang ts m (i + 0) ((p :: rest).getD 0 "")
          = Transcriber.placeholder i := by
        simp only [List.getD_cons_zero, Nat.add_zero, Transcriber.perChunkText, htr]
      rw [hhead]
    · simp only
      simp only [ih (i + 1) total hrest, Except.map]
      rw [htail]
      have hhead : Transcriber.perChunkText w key lang ts m (i + 0) ((p :: rest).getD 0 "")
          = (if ts && 0 < i * m then Transcriber.chunkMarker i (i * m) t else t) := by
        simp only [List.getD_cons_zero, Nat.add_zero, Transcriber.perChunkText, htr]
      rw [hhead]

/-- Short-audio path of `transcribe_audio_chunked`: at or below one
chunk duration, the call is the single-call transcription, preceded by
the one duration-probe subprocess event. -/
lemma chunked_short_path (w : Transcriber.World) (a temp lang : String)
    (key : Option String) (ts : Bool) (m delay : ℕ) (d : ℚ)
    (hfa : w.fileExists a = true)
    (hdur : w.ffprobeOut a = some d)
    (hle : d ≤ ((m * 60 : ℕ) : ℚ)) :
    Transcriber.transcribe_audio_chunked w a key lang m delay ts temp
      = ((Transcriber.transcribe_audio w a key lang ts).1,
         [Transcriber.Event.subprocess (Transcriber.ffprobeArgv "ffprobe" a)]
           ++ (Transcriber.transcribe_audio w a key lang ts).2) := by
  have hga : Transcriber.get_audio_duration w a
      = (.ok d, [.subprocess (Transcriber.ffprobeArgv "ffprobe" a)]) := by
    rw [Transcriber.get_audio_duration, hdur]
  rw [Transcriber.transcribe_audio_chunked]
  rw [hfa]
  simp only [Bool.not_true, Bool.false_eq_true, if_false]
  rw [hga]
  simp only
  rw [if_pos hle]

/-- Long-audio path of `transcribe_audio_chunked`: above one chunk
duration, the result is the blank-line join of the
`⌈d / chunk_duration⌉` per-chunk texts, in order. -/
lemma chunked_long_path (w : Transcriber.World) (a temp lang : String)
    (key : Option String) (ts : Bool) (m delay : ℕ) (d : ℚ)
    (hm : 0 < m)
    (hfa : w.fileExists a = true)
    (hdur : w.ffprobeOut a = some d)
    (hsplit : ∀ s, w.ffmpegSplitOk a s = true)
    (hchunks : ∀ i, w.fileExists (Transcriber.chunkName temp i) = true
        ∧ w.isFile (Transcriber.chunkName temp i) = true)
    (hgt : ((m * 60 : ℕ) : ℚ) < d) :
    (Transcriber.transcribe_audio_chunked w a key lang m delay ts temp).1
      = .ok (String.intercalate "\n\n"
          ((List.range (⌈d / ((m * 60 : ℕ) : ℚ)⌉.toNat)).map
            (fun i => Transcriber.perChunkText w key lang ts m i
              (Transcriber.chunkName temp i)))) := by
  have hga : Transcriber.get_audio_duration w a
      = (.ok d, [.subprocess (Transcriber.ffprobeArgv "ffprobe" a)]) := by
    rw [Transcriber.get_audio_duration, hdur]
  have hc : 0 < m * 60 := by positivity
  have hsl := splitLoop_names w a temp (m * 60) d hsplit hc
    (⌈d⌉.toNat + 1) 0 0 (by omega)
  have hd0 : d - ((0 : ℕ) : ℚ) = d := by push_cast; ring
  rw [hd0] at hsl
  have hsa : Transcriber.split_audio w a temp (m * 60)
      = ((Transcriber.splitLoop w a temp (m * 60) d 0 0).1,
         [Transcriber.Event.subprocess (Transcriber.ffprobeArgv "ffprobe" a)]
           ++ (Transcriber.splitLoop w a temp (m * 60) d 0 0).2) := by
    rw [Transcriber.split_audio, hga]
  rw [hsl] at hsa
  have hmem : ∀ p ∈ (List.range (⌈d / ((m * 60 : ℕ) : ℚ)⌉.toNat)).map
      (fun k => Transcriber.chunkName temp (0 + k)),
      w.fileExists p = true ∧ w.isFile p = true := by
    intro p hp
    simp only [List.mem_map, List.mem_range] at hp
    obtain ⟨k, _, rfl⟩ := hp
    exact hchunks (0 + k)
  have hcl := chunkLoop_ok w key lang ts m delay
    ((List.range (⌈d / ((m * 60 : ℕ) : ℚ)⌉.toNat)).map
      (fun k => Transcriber.chunkName temp (0 + k))) 0
    ((List.range (⌈d / ((m * 60 : ℕ) : ℚ)⌉.toNat)).map
      (fun k => Transcriber.chunkName temp (0 + k))).length hmem
  rw [Transcriber.transcribe_audio_chunked]
  rw [hfa]
  simp only [Bool.not_true, Bool.false_eq_true, if_false]
  rw [hga]
  simp only
  rw [if_neg (by exact not_le.mpr hgt)]
  rw [hsa]
  simp only [hcl, Except.map]
  congr 1
  congr 1
  rw [List.length_map, List.length_range]
  apply List.map_congr_left
  intro k hk
  simp only [List.mem_range] at hk
  have hgetd : (((List.range (⌈d / ((m * 60 : ℕ) : ℚ)⌉.toNat)).map
      (fun j => Transcriber.chunkName temp (0 + j))).getD k "")
      = Transcriber.chunkName temp k := by
    rw [List.getD_eq_getElem?_getD, List.getElem?_map, List.getElem?_range hk]
    simp
  rw [hgetd]
  congr 1
  omega

/-- Event trace of the long-audio path: the two duration probes (one in
`transcribe_audio_chunked`, one in `split_audio`), then one ffmpeg
split invocation per chunk at consecutive multiples of the chunk
duration with the fixed requested length, then the per-chunk events. -/
lemma chunked_long_trace (w : Transcriber.World) (a temp lang : String)
    (key : Option String) (ts : Bool) (m delay : ℕ) (d : ℚ)
    (hm : 0 < m)
    (hfa : w.fileExists a = true)
    (hdur : w.ffprobeOut a = some d)
    (hsplit : ∀ s, w.ffmpegSplitOk a s = true)
    (hchunks : ∀ i, w.fileExists (Transcriber.chunkName temp i) = true
        ∧ w.isFile (Transcriber.chunkName temp i) = true)
    (hgt : ((m * 60 : ℕ) : ℚ) < d) :
    ∃ tail : List Transcriber.Event,
      (Transcriber.transcribe_audio_chunked w a key lang m delay ts temp).2
        = Transcriber.Event.subprocess (Transcriber.ffprobeArgv "ffprobe" a)
            :: Transcriber.Event.subprocess (Transcriber.ffprobeArgv "ffprobe" a)
            :: (((List.range (⌈d / ((m * 60 : ℕ) : ℚ)⌉.toNat)).map
                (fun k => Transcriber.Event.subprocess
                  (Transcriber.ffmpegSplitArgv "ffmpeg" a (k * (m * 60)) (m * 60)
                    (Transcriber.chunkName temp k)))) ++ tail) := by
  have hga : Transcriber.get_audio_duration w a
      = (.ok d, [.subprocess (Transcriber.ffprobeArgv "ffprobe" a)]) := by
    rw [Transcriber.get_audio_duration, hdur]
  have hc : 0 < m * 60 := by positivity
  have hsl := splitLoop_names w a temp (m * 60) d hsplit hc
    (⌈d⌉.toNat + 1) 0 0 (by omega)
  have hse := splitLoop_events w a temp (m * 60) d hsplit hc
    (⌈d⌉.toNat + 1) 0 0 (by omega)
  have hd0 : d - ((0 : ℕ) : ℚ) = d := by push_cast; ring
  rw [hd0] at hsl hse
  have hsa : Transcriber.split_audio w a temp (m * 60)
      = ((Transcriber.splitLoop w a temp (m * 60) d 0 0).1,
         [Transcriber.Event.subprocess (Transcriber.ffprobeArgv "ffprobe" a)]
           ++ (Transcriber.splitLoop w a temp (m * 60) d 0 0).2) := by
    rw [Transcriber.split_audio, hga]
  rw [hsl] at hsa
  refine ⟨(Transcriber.chunkLoop w key lang ts m delay
      ((List.range (⌈d / ((m * 60 : ℕ) : ℚ)⌉.toNat)).map
        (fun k => Transcriber.chunkName temp (0 + k))) 0
      ((List.range (⌈d / ((m * 60 : ℕ) : ℚ)⌉.toNat)).map
        (fun k => Transcriber.chunkName temp (0 + k))).length).2, ?_⟩
  rw [Transcriber.transcribe_audio_chunked]
  rw [hfa]
  simp only [Bool.not_true, Bool.false_eq_true, if_false]
  rw [hga]
  simp only
  rw [if_neg (by exact not_le.mpr hgt)]
  rw [hsa]
  simp only [hse]
  simp only [List.cons_append, List.nil_append, List.append_assoc]
  congr 2
  congr 1
  apply List.map_congr_left
  intro k _
  congr 2
  · omega
  · congr 1
    omega

/-- With no usable credential and an existing input file, the
single-call transcription fails with the configuration error before
any external event. -/
lemma transcribe_audio_config_error (w : Transcriber.World) (p : String)
    (key : Option String) (lang : String) (ts : Bool)
    (h1 : w.fileExists p = true) (h2 : w.isFile p = true)
    (hkey : truthy (pyOr key w.envKey) = false) :
    Transcriber.transcribe_audio w p key lang ts
      = (.error .config, []) := by
  rw [Transcriber.transcribe_audio]
  rw [h1, h2]
  simp only [Bool.not_true, Bool.false_eq_true, if_false]
  have hcfg : Transcriber.configure_gemini w key = .error .config := by
    rw [Transcriber.configure_gemini, hkey]
    rfl
  rw [hcfg]

/-- C1: with a probed duration at or below one chunk
(`chunk_duration_minutes * 60` seconds), chunked transcription returns
exactly the single-call result, the only extra event being the duration
probe — in particular no split (no subprocess beyond the probe) ever
happens; with a duration strictly above one chunk, the audio is split
into `⌈d / chunk_duration⌉` consecutive fixed-length chunk files
`chunk_000, chunk_001, ...` and the final transcript is the per-chunk
texts (transcripts or placeholders), joined by exactly one blank line,
in original chunk order. -/
theorem transcribe_chunked_split_behavior
    (w : Transcriber.World) (a temp lang : String) (key : Option String)
    (ts : Bool) (m delay : ℕ) (d : ℚ)
    (hm : 0 < m)
    (hfa : w.fileExists a = true)
    (hdur : w.ffprobeOut a = some d)
    (hsplit : ∀ s, w.ffmpegSplitOk a s = true)
    (hchunks : ∀ i, w.fileExists (Transcriber.chunkName temp i) = true
        ∧ w.isFile (Transcriber.chunkName temp i) = true) :
    (d ≤ ((m * 60 : ℕ) : ℚ) →
      (Transcriber.transcribe_audio_chunked w a key lang m delay ts temp).1
          = (Transcriber.transcribe_audio w a key lang ts).1 ∧
      (Transcriber.transcribe_audio_chunked w a key lang m delay ts temp).2
          = Transcriber.Event.subprocess (Transcriber.ffprobeArgv "ffprobe" a)
              :: (Transcriber.transcribe_audio w a key lang ts).2 ∧
      (∀ argv, Transcriber.Event.subprocess argv
          ∉ (Transcriber.transcribe_audio w a key lang ts).2)) ∧
    (((m * 60 : ℕ) : ℚ) < d →
      (Transcriber.transcribe_audio_chunked w a key lang m delay ts temp).1
        = .ok (String.intercalate "\n\n"
            ((List.range (⌈d / ((m * 60 : ℕ) : ℚ)⌉.toNat)).map
              (fun i => Transcriber.perChunkText w key lang ts m i
                (Transcriber.chunkName temp i)))) ∧
      (∃ tail : List Transcriber.Event,
        (Transcriber.transcribe_audio_chunked w a key lang m delay ts temp).2
          = Transcriber.Event.subprocess (Transcriber.ffprobeArgv "ffprobe" a)
              :: Transcriber.Event.subprocess (Transcriber.ffprobeArgv "ffprobe" a)
              :: (((List.range (⌈d / ((m * 60 : ℕ) : ℚ)⌉.toNat)).map
                  (fun k => Transcriber.Event.subprocess
                    (Transcriber.ffmpegSplitArgv "ffmpeg" a (k * (m * 60)) (m * 60)
                      (Transcriber.chunkName temp k)))) ++ tail))) := by
  constructor
  · -- short audio: delegation, no splitting
    intro hle
    rw [chunked_short_path w a temp lang key ts m delay d hfa hdur hle]
    exact ⟨rfl, rfl, transcribe_audio_no_subprocess w a key lang ts⟩
  · -- long audio: split into the ceil-many fixed-length chunks, rejoin
    intro hgt
    exact ⟨chunked_long_path w a temp lang key ts m delay d hm hfa hdur hsplit hchunks hgt,
      chunked_long_trace w a temp lang key ts m delay d hm hfa hdur hsplit hchunks hgt⟩

/-- C1 (witness): at a concrete world with duration 90s, a 2-minute
chunk setting delegates to the single call, and a 1-minute chunk
setting splits and rejoins the per-chunk texts. -/
theorem transcribe_chunked_split_behavior_witness :
    ((Transcriber.transcribe_audio_chunked okTransWorld "a.mp3" (some "key") "en" 2 5 false "tmp").1
        = (Transcriber.transcribe_audio okTransWorld "a.mp3" (some "key") "en" false).1) ∧
    ((Transcriber.transcribe_audio_chunked okTransWorld "a.mp3" (some "key") "en" 1 5 false "tmp").1
        = .ok (String.intercalate "\n\n"
            ((List.range (⌈(90 : ℚ) / ((1 * 60 : ℕ) : ℚ)⌉.toNat)).map
              (fun i => Transcriber.perChunkText okTransWorld (some "key") "en" false 1 i
                (Transcriber.chunkName "tmp" i))))) :=
  ⟨((transcribe_chunked_split_behavior okTransWorld "a.mp3" "tmp" "en" (some "key") false 2 5 90
      (by norm_num) rfl rfl (fun _ => rfl) (fun _ => ⟨rfl, rfl⟩)).1 (by norm_num)).1,
   ((transcribe_chunked_split_behavior okTransWorld "a.mp3" "tmp" "en" (some "key") false 1 5 90
      (by norm_num) rfl rfl (fun _ => rfl) (fun _ => ⟨rfl, rfl⟩)).2 (by norm_num)).1⟩

/-! ## Claim C7: chunk failure degrades to a placeholder -/

/-- C7: in the multi-chunk path, when the transcription of chunk `j`
raises a `TranscriptionError`, the whole batch still succeeds; the
final transcript is a blank-line join of per-chunk texts in which the
`j`-th entry is exactly the placeholder marker for chunk `j`. -/
theorem chunk_failure_placeholder
    (w : Transcriber.World) (a temp lang : String) (key : Option String)
    (ts : Bool) (m delay : ℕ) (d : ℚ) (j : ℕ) (e : Transcriber.TransError)
    (hm : 0 < m)
    (hfa : w.fileExists a = true)
    (hdur : w.ffprobeOut a = some d)
    (hsplit : ∀ s, w.ffmpegSplitOk a s = true)
    (hchunks : ∀ i, w.fileExists (Transcriber.chunkName temp i) = true
        ∧ w.isFile (Transcriber.chunkName temp i) = true)
    (hgt : ((m * 60 : ℕ) : ℚ) < d)
    (hj : j < ⌈d / ((m * 60 : ℕ) : ℚ)⌉.toNat)
    (herr : (Transcriber.transcribe_audio w (Transcriber.chunkName temp j) key lang ts).1
        = .error e) :
    ∃ texts : List String,
      (Transcriber.transcribe_audio_chunked w a key lang m delay ts temp).1
        = .ok (String.intercalate "\n\n" texts) ∧
      texts.length = ⌈d / ((m * 60 : ℕ) : ℚ)⌉.toNat ∧
      texts.getD j "" = Transcriber.placeholder j := by
  refine ⟨(List.range (⌈d / ((m * 60 : ℕ) : ℚ)⌉.toNat)).map
      (fun i => Transcriber.perChunkText w key lang ts m i
        (Transcriber.chunkName temp i)),
    chunked_long_path w a temp lang key ts m delay d hm hfa hdur hsplit hchunks hgt,
    by simp, ?_⟩
  rw [List.getD_eq_getElem?_getD, List.getElem?_map, List.getElem?_range hj]
  simp only [Option.map_some, Option.map_some', Option.getD_some]
  rw [Transcriber.perChunkText, herr]

/-- C7 (witness): at a concrete world where chunk 0 of two fails, the
batch succeeds and slot 0 carries the placeholder. -/
theorem chunk_failure_placeholder_witness :
    ∃ texts : List String,
      (Transcriber.transcribe_audio_chunked failChunkWorld "a.mp3" (some "key") "en" 1 5 false "tmp").1
        = .ok (String.intercalate "\n\n" texts) ∧
      texts.length = ⌈(90 : ℚ) / ((1 * 60 : ℕ) : ℚ)⌉.toNat ∧
      texts.getD 0 "" = Transcriber.placeholder 0 :=
  chunk_failure_placeholder failChunkWorld "a.mp3" "tmp" "en" (some "key") false 1 5 90 0
    (.generationFailed "boom") (by norm_num) rfl rfl (fun _ => rfl)
    (fun _ => ⟨rfl, rfl⟩) (by norm_num) (by norm_num) rfl

/-! ## Claim C4: missing credential -/

/-- C4 (counterexample): with no credential anywhere, chunked
transcription does NOT fail with a configuration error before any
subprocess call.  In the multi-chunk path (duration 90s, 1-minute
chunks) it runs subprocesses and then SUCCEEDS, returning placeholder
text for every chunk; in the short path (2-minute chunks) the
configuration error is raised only after the ffprobe subprocess has
already run (the event trace of the failing call is non-empty). -/
theorem missing_credential_cex :
    (Transcriber.transcribe_audio_chunked okTransWorld "a.mp3" none "en" 1 0 false "tmp").1
        = .ok "[Transcription failed for chunk 1]\n\n[Transcription failed for chunk 2]" ∧
    Transcriber.transcribe_audio_chunked okTransWorld "a.mp3" none "en" 2 0 false "tmp"
        = (.error .config,
           [Transcriber.Event.subprocess (Transcriber.ffprobeArgv "ffprobe" "a.mp3")]) := by
  constructor
  · rw [chunked_long_path okTransWorld "a.mp3" "tmp" "en" none false 1 0 90
      (by norm_num) rfl rfl (fun _ => rfl) (fun _ => ⟨rfl, rfl⟩) (by norm_num)]
    have hN : ⌈(90 : ℚ) / ((1 * 60 : ℕ) : ℚ)⌉.toNat = 2 := by
      have h2 : ⌈(90 : ℚ) / ((1 * 60 : ℕ) : ℚ)⌉ = 2 := by
        rw [Int.ceil_eq_iff]
        norm_num
      rw [h2]
      rfl
    rw [hN]
    rfl
  · rw [chunked_short_path okTransWorld "a.mp3" "tmp" "en" none false 2 0 90 rfl rfl
      (by norm_num)]
    rfl

/-- C4 (amended): with no usable credential, single-call transcription
(on an existing file) and summarization (on non-blank inputs) fail with
the configuration error before any network or subprocess call (their
event traces are empty).  Chunked transcription instead always runs the
ffprobe duration probe first: in the short-audio path it then fails
with the configuration error (after that subprocess call), and in the
multi-chunk path it splits the audio and returns success with a
placeholder for every chunk rather than failing. -/
theorem missing_credential_behavior :
    (∀ (w : Transcriber.World) (a lang : String) (ts : Bool) (key : Option String),
      w.fileExists a = true → w.isFile a = true →
      truthy (pyOr key w.envKey) = false →
      Transcriber.transcribe_audio w a key lang ts = (.error .config, [])) ∧
    (∀ (w : Summarizer.World) (tr ti : String) (key : Option String)
        (ym sm : ℕ) (gt : Bool) (mt : ℕ),
      pyStrip tr ≠ "" → pyStrip ti ≠ "" →
      truthy (pyOr key w.envKey) = false →
      Summarizer.generate_descriptions w tr ti key ym sm gt mt
        = (.error .config, [])) ∧
    (∀ (w : Transcriber.World) (a temp lang : String) (ts : Bool)
        (key : Option String) (m delay : ℕ) (d : ℚ),
      w.fileExists a = true → w.isFile a = true →
      w.ffprobeOut a = some d →
      truthy (pyOr key w.envKey) = false →
      d ≤ ((m * 60 : ℕ) : ℚ) →
      Transcriber.transcribe_audio_chunked w a key lang m delay ts temp
        = (.error .config,
           [Transcriber.Event.subprocess (Transcriber.ffprobeArgv "ffprobe" a)])) ∧
    (∀ (w : Transcriber.World) (a temp lang : String) (ts : Bool)
        (key : Option String) (m delay : ℕ) (d : ℚ),
      0 < m →
      w.fileExists a = true →
      w.ffprobeOut a = some d →
      (∀ s, w.ffmpegSplitOk a s = true) →
      (∀ i, w.fileExists (Transcriber.chunkName temp i) = true
          ∧ w.isFile (Transcriber.chunkName temp i) = true) →
      truthy (pyOr key w.envKey) = false →
      ((m * 60 : ℕ) : ℚ) < d →
      (Transcriber.transcribe_audio_chunked w a key lang m delay ts temp).1
        = .ok (String.intercalate "\n\n"
            ((List.range (⌈d / ((m * 60 : ℕ) : ℚ)⌉.toNat)).map
              Transcriber.placeholder))) := by
  refine ⟨?_, ?_, ?_, ?_⟩
  · intro w a lang ts key h1 h2 hkey
    exact transcribe_audio_config_error w a key lang ts h1 h2 hkey
  · intro w tr ti key ym sm gt mt htr hti hkey
    rw [Summarizer.generate_descriptions]
    rw [if_neg htr, if_neg hti]
    have hcfg : Summarizer.configure_gemini w key = .error .config := by
      rw [Summarizer.configure_gemini, hkey]
      rfl
    rw [hcfg]
  · intro w a temp lang ts key m delay d h1 h2 hdur hkey hle
    rw [chunked_short_path w a temp lang key ts m delay d h1 hdur hle]
    rw [transcribe_audio_config_error w a key lang ts h1 h2 hkey]
    rfl
  · intro w a temp lang ts key m delay d hm h1 hdur hsplit hchunks hkey hgt
    rw [chunked_long_path w a temp lang key ts m delay d hm h1 hdur hsplit hchunks hgt]
    congr 1
    congr 1
    apply List.map_congr_left
    intro i _
    rw [Transcriber.perChunkText,
      transcribe_audio_config_error w (Transcriber.chunkName temp i) key lang ts
        (hchunks i).1 (hchunks i).2 hkey]

/-- C4 (witness): the four amended conjuncts at concrete worlds with no
credential. -/
theorem missing_credential_behavior_witness :
    Transcriber.transcribe_audio okTransWorld "a.mp3" none "en" false
      = (.error .config, []) ∧
    Summarizer.generate_descriptions sumWorld "some transcript" "a title" none 5000 4000 true 10
      = (.error .config, []) ∧
    Transcriber.transcribe_audio_chunked okTransWorld "a.mp3" none "en" 2 5 false "tmp"
      = (.error .config,
         [Transcriber.Event.subprocess (Transcriber.ffprobeArgv "ffprobe" "a.mp3")]) ∧
    (Transcriber.transcribe_audio_chunked okTransWorld "a.mp3" none "en" 1 5 false "tmp").1
      = .ok (String.intercalate "\n\n"
          ((List.range (⌈(90 : ℚ) / ((1 * 60 : ℕ) : ℚ)⌉.toNat)).map
            Transcriber.placeholder)) :=
  ⟨missing_credential_behavior.1 okTransWorld "a.mp3" "en" false none rfl rfl rfl,
   missing_credential_behavior.2.1 sumWorld "some transcript" "a title" none 5000 4000 true 10
     (by decide) (by decide) rfl,
   missing_credential_behavior.2.2.1 okTransWorld "a.mp3" "tmp" "en" false none 2 5 90
     rfl rfl rfl rfl (by norm_num),
   missing_credential_behavior.2.2.2 okTransWorld "a.mp3" "tmp" "en" false none 1 5 90
     (by norm_num) rfl rfl (fun _ => rfl) (fun _ => ⟨rfl, rfl⟩) rfl (by norm_num)⟩
